import Mathlib

/-!
Shallow embedding of the content-acquisition and page-capture engine of
`image_extraction.py` (promo scraper).  Pure string logic (regex scans,
filename sanitisation, deduplication, filename derivation) is translated
directly; the effectful capture pipeline is embedded as explicit state
passing over a fault-oracle environment.  Strings are modelled as
`List Char`, matching Python `str` as a character sequence.
-/

set_option autoImplicit false

namespace Frisian

/-! ### Character classes used by the Python regexes and `str` methods -/

/-- ASCII whitespace, the character class of Python `\s` and `str.strip()`
restricted to the ASCII range (all inputs of this program are ASCII). -/
def pyIsSpace (c : Char) : Bool :=
  c == ' ' || c == '\t' || c == '\n' || c == '\r' || c == Char.ofNat 11 || c == Char.ofNat 12

/-- The apostrophe character (written via its code point). -/
def apos : Char := Char.ofNat 39

/-- Characters excluded by the regex class following the URL scheme
in the generic document patterns: anything but a double or single quote. -/
def nonQuote (c : Char) : Bool :=
  !(c == '"') && !(c == apos)

/-! ### Python `str.split` / `str.replace` / `str.strip` on `List Char` -/

/-- Python `s.split(sep)` for a one-character separator: splits at every
occurrence of `sep`; always returns a non-empty list of pieces. -/
def pySplit (sep : Char) : List Char → List (List Char)
  | [] => [[]]
  | c :: rest =>
    match pySplit sep rest with
    | [] => [[]]
    | h :: t => if c = sep then [] :: h :: t else (c :: h) :: t

/-- Python `s.replace("\\/", "/")`: rewrite every (left-to-right,
non-overlapping) occurrence of backslash-slash into a slash. -/
def unescapeSlashes : List Char → List Char
  | '\\' :: '/' :: rest => '/' :: unescapeSlashes rest
  | c :: rest => c :: unescapeSlashes rest
  | [] => []

/-- Python `s.strip()`: remove leading and trailing whitespace. -/
def pyStrip (s : List Char) : List Char :=
  ((s.dropWhile pyIsSpace).reverse.dropWhile pyIsSpace).reverse

/-! ### `safe` (image_extraction.py lines 17-20) -/

/-- The characters removed by `re.sub(r'[\\/*?:"<>|]', "", name)`. -/
def forbiddenChars : List Char := ['\\', '/', '*', '?', ':', '"', '<', '>', '|']

/-- `re.sub(r'[\\/*?:"<>|]', "", s)`: delete every forbidden character. -/
def removeForbidden (s : List Char) : List Char :=
  s.filter (fun c => decide (c ∉ forbiddenChars))

/-- `safe(name)` from the source: strip surrounding whitespace, delete the
forbidden filesystem characters, and fall back to `"untitled"` when the
result is empty (Python `name or "untitled"`). -/
def safe (name : List Char) : List Char :=
  let n := removeForbidden (pyStrip name)
  if n = [] then "untitled".data else n

/-! ### Literal matching helpers for the regex embeddings -/

/-- Match a literal list of characters at the head of `s`; on success
return the remainder of `s`. -/
def stripLit : List Char → List Char → Option (List Char)
  | [], s => some s
  | _ :: _, [] => none
  | c :: cs, d :: ds => if d = c then stripLit cs ds else none

/-- End index (within `run`) of the LAST occurrence of the literal `lit`
as a contiguous sublist of `run`, or `none` when `lit` does not occur.
Preferring the last occurrence mirrors the greedy backtracking of a regex
of the shape `lit1[^"']+lit2`. -/
def lastLitEnd (lit : List Char) : List Char → Option Nat
  | [] => none
  | c :: rest =>
    match lastLitEnd lit rest with
    | some n => some (n + 1)
    | none =>
      match stripLit lit (c :: rest) with
      | some _ => some lit.length
      | none => none

/-- Attempt, at the current position, to match a regex of the shape
`pre[^"']+post` (both `pre` and `post` literal): the greedy character
class consumes the maximal run of non-quote characters and backtracks to
the last occurrence of `post`, which must leave at least one character
for the `+`.  Returns the full matched text. -/
def matchRunLitAt (pre post : List Char) (s : List Char) : Option (List Char) :=
  match stripLit pre s with
  | none => none
  | some r =>
    let run := r.takeWhile nonQuote
    match lastLitEnd post run with
    | some e => if post.length + 1 ≤ e then some (pre ++ run.take e) else none
    | none => none

/-- Leftmost match of `pre[^"']+post` anywhere in `s` (the scan order of
`re.search`). -/
def findRunLit (pre post : List Char) : List Char → Option (List Char)
  | [] => none
  | c :: rest =>
    match matchRunLitAt pre post (c :: rest) with
    | some u => some u
    | none => findRunLit pre post rest

/-- `re.search(r'https://[^"\']+\.pdf', s)`, the generic document-extension
pattern, returning the matched text. -/
def findGenericPdf (s : List Char) : Option (List Char) :=
  findRunLit "https://".data ".pdf".data s

/-- `re.search(r'https://img\.indomaret\.co\.id[^"\']+index\.html', s)`,
the viewer-index pattern, returning the matched text. -/
def findFlipIndex (s : List Char) : Option (List Char) :=
  findRunLit "https://img.indomaret.co.id".data "index.html".data s

/-- Attempt, at the current position, to match
`"pdfUrl"\s*:\s*"([^"]+)"` and return the captured group: the literal
`"pdfUrl"`, optional whitespace, a colon, optional whitespace, an opening
quote, then at least one non-quote character up to a closing quote. -/
def matchPdfUrlAt (s : List Char) : Option (List Char) :=
  match stripLit "\"pdfUrl\"".data s with
  | none => none
  | some r1 =>
    match r1.dropWhile pyIsSpace with
    | ':' :: r3 =>
      match r3.dropWhile pyIsSpace with
      | '"' :: r5 =>
        let cap := r5.takeWhile (fun c => !(c == '"'))
        match r5.dropWhile (fun c => !(c == '"')) with
        | '"' :: _ => if cap = [] then none else some cap
        | _ => none
      | _ => none
    | _ => none

/-- Leftmost match of the structured `pdfUrl` field anywhere in `s`
(the scan order of `re.search`), returning the captured URL. -/
def findPdfUrlField : List Char → Option (List Char)
  | [] => none
  | c :: rest =>
    match matchPdfUrlAt (c :: rest) with
    | some u => some u
    | none => findPdfUrlField rest

/-! ### `extract_pdf_url_from_text` (lines 58-67) and
`extract_flipbook_index_html` (lines 70-76) -/

/-- `extract_pdf_url_from_text(text)`: `None` on empty input; else the
structured `pdfUrl` field (with escaped slashes unescaped) when present,
else the first generic `https://...pdf` match (returned verbatim),
else `None`. -/
def extract_pdf_url_from_text (text : List Char) : Option (List Char) :=
  if text = [] then none
  else
    match findPdfUrlField text with
    | some u => some (unescapeSlashes u)
    | none => findGenericPdf text

/-- `extract_flipbook_index_html(html)`: `None` on empty input; else the
first viewer-index match with escaped slashes unescaped, else `None`. -/
def extract_flipbook_index_html (html : List Char) : Option (List Char) :=
  if html = [] then none
  else
    match findFlipIndex html with
    | some u => some (unescapeSlashes u)
    | none => none

/-! ### Frame tree and `find_pdf_in_frames_recursively` (lines 82-104) -/

/-- A browsing-context (frame) tree: the rendered markup of the context
(`none` models `frame.content()` raising, which the source swallows) and
the child contexts in document order. -/
inductive FrameTree where
  | node (content : Option (List Char)) (children : List FrameTree)

/-- The guarded markup scan of one context: when the markup was obtained,
search it with the generic document-extension pattern. -/
def frameContentScan (content : Option (List Char)) : Option (List Char) :=
  match content with
  | some html => findGenericPdf html
  | none => none

mutual

/-- `find_pdf_in_frames_recursively(frame)`: scan this context's markup,
then recurse into each child context in order, returning the first hit. -/
def find_pdf_in_frames_recursively : FrameTree → Option (List Char)
  | .node content children =>
    match frameContentScan content with
    | some u => some u
    | none => findPdfInFrameList children

/-- The child-context loop of `find_pdf_in_frames_recursively`. -/
def findPdfInFrameList : List FrameTree → Option (List Char)
  | [] => none
  | f :: fs =>
    match find_pdf_in_frames_recursively f with
    | some u => some u
    | none => findPdfInFrameList fs

end

/-- `extract_pdf_from_iframes(page)`: run the recursive scan over the
page's frame list. -/
def extract_pdf_from_iframes (frames : List FrameTree) : Option (List Char) :=
  findPdfInFrameList frames

mutual

/-- Depth of a frame tree (a leaf context has depth 1). -/
def FrameTree.depth : FrameTree → Nat
  | .node _ children => 1 + depthList children

/-- Maximal depth over a list of frame trees. -/
def depthList : List FrameTree → Nat
  | [] => 0
  | f :: fs => max f.depth (depthList fs)

end

mutual

/-- Preorder (root first, then children in document order) listing of the
context markups of a frame tree. -/
def preorderContents : FrameTree → List (Option (List Char))
  | .node c children => c :: preorderList children

/-- Preorder listing over a list of frame trees. -/
def preorderList : List FrameTree → List (Option (List Char))
  | [] => []
  | f :: fs => preorderContents f ++ preorderList fs

end

mutual

/-- Fuel-bounded version of the recursive frame scan: `none` when the
fuel is exhausted before the scan completes, `some r` when the scan
completes with result `r` using recursion depth at most `fuel`. -/
def findPdfFuel : Nat → FrameTree → Option (Option (List Char))
  | 0, _ => none
  | fuel + 1, .node content children =>
    match frameContentScan content with
    | some u => some (some u)
    | none => findPdfFuelList fuel children
termination_by fuel _ => (fuel, 0)

/-- Fuel-bounded child-context loop. -/
def findPdfFuelList : Nat → List FrameTree → Option (Option (List Char))
  | _, [] => some none
  | fuel, f :: fs =>
    match findPdfFuel fuel f with
    | none => none
    | some (some u) => some (some u)
    | some none => findPdfFuelList fuel fs
termination_by fuel fs => (fuel, fs.length + 1)

end

/-! ### Content descriptor and the Content Locator
(the strategy cascade of `capture_single`, lines 276-309) -/

/-- The determined delivery mechanism of one catalog entry. -/
inductive ContentDescriptor where
  | document (sourceURL : List Char)
  | viewer (indexURL : List Char)
  | noContent
deriving DecidableEq, Repr

/-- The detection cascade of `capture_single`: first network-observed
document URL (`found_pdfs[0]`), then the inline markup scan
(`extract_pdf_url_from_text`, itself structured field before generic
pattern), then the recursive frame scan, then the viewer-index pattern on
the re-read markup `html2`; `noContent` when nothing matches. -/
def locateContent (foundPdfs : List (List Char)) (html : List Char)
    (frames : List FrameTree) (html2 : List Char) : ContentDescriptor :=
  let pdf : Option (List Char) :=
    match foundPdfs with
    | u :: _ => some u
    | [] =>
      match extract_pdf_url_from_text html with
      | some u => some u
      | none => extract_pdf_from_iframes frames
  match pdf with
  | some u => ContentDescriptor.document u
  | none =>
    match extract_flipbook_index_html html2 with
    | some i => ContentDescriptor.viewer i
    | none => ContentDescriptor.noContent

/-! ### Viewer paginator (`screenshot_flipbook_index`, lines 151-241) -/

/-- The pagination loop of `screenshot_flipbook_index`.  `pageNum` is the
running ordinal; the loop runs while `pageNum ≤ 500`, which is encoded by
the fuel argument (`fuel = 501 - pageNum` at every call).  `snapOk n`
tells whether the snapshot of ordinal `n` succeeds, `advOk n` whether an
advance control is present (and activated) after ordinal `n`.  On a
snapshot failure the loop breaks; after a snapshot, when no advance
control is present the loop breaks; either way the source returns
`page_num - 1`. -/
def flipLoop (snapOk advOk : Nat → Bool) : Nat → Nat → Nat
  | pageNum, 0 => pageNum - 1
  | pageNum, fuel + 1 =>
    if snapOk pageNum then
      if advOk pageNum then flipLoop snapOk advOk (pageNum + 1) fuel
      else pageNum - 1
    else pageNum - 1

/-- Number of successful snapshots actually taken (files written) by
`flipLoop` under the same oracles: one per visited ordinal whose snapshot
succeeds. -/
def snapSuccesses (snapOk advOk : Nat → Bool) : Nat → Nat → Nat
  | _, 0 => 0
  | pageNum, fuel + 1 =>
    if snapOk pageNum then
      if advOk pageNum then 1 + snapSuccesses snapOk advOk (pageNum + 1) fuel
      else 1
    else 0

/-- `screenshot_flipbook_index`: 0 when the viewer index fails to load or
no recognized page-content selector is found (no pages directory is
created in the latter two cases either); otherwise run the pagination
loop starting at ordinal 1 under the ceiling 500. -/
def screenshot_flipbook_index (loadOk selFound : Bool) (snapOk advOk : Nat → Bool) : Nat :=
  if loadOk then
    if selFound then flipLoop snapOk advOk 1 500 else 0
  else 0

/-! ### Document acquisition (`download_pdf` lines 110-122,
`convert_pdf_to_images` lines 125-145, `pdf_name` from line 294) -/

/-- `download_pdf(page, url, dest)`: the pair (returned success flag,
whether `dest` was written).  `reqFault` models the GET itself raising,
`bodyFault` a fault while reading the body; a non-200 status returns
`False` before any write; the write happens only after the body has been
fully received. -/
def download_pdf (reqFault : Bool) (status : Nat) (bodyFault : Bool) : Bool × Bool :=
  if reqFault then (false, false)
  else if status ≠ 200 then (false, false)
  else if bodyFault then (false, false)
  else (true, true)

/-- Result of `convert_pdf_to_images`: the returned page count and
whether the `pages/` output directory was created. -/
structure ConvertFx where
  count : Nat
  pagesDirCreated : Bool
deriving DecidableEq, Repr

/-- `convert_pdf_to_images(pdf_file, out_dir)`: when the rasterizer
(`fitz`) cannot be imported, return 0 without creating the output
directory; otherwise create it and rasterize every document page. -/
def convert_pdf_to_images (fitzAvail : Bool) (pageCount : Nat) : ConvertFx :=
  if fitzAvail then { count := pageCount, pagesDirCreated := true }
  else { count := 0, pagesDirCreated := false }

/-- The filename derivation of `capture_single` line 294:
`pdf.split("/")[-1].split("?")[0]`. -/
def pdf_name (url : List Char) : List Char :=
  ((pySplit '?' ((pySplit '/' url).getLastD [])).headD [])

/-! ### The per-listing capture pipeline (`capture_single`, lines 247-324)
and the batch loop of `main` (lines 478-479) -/

/-- Fault oracle and page data for one capture session.  The three fault
flags model, in program order: `folder.mkdir` (line 249, before the `try`
block), `browser.new_page()` (line 254, before the `try` block), and any
fault inside the guarded region (navigation onward, lines 271-311). -/
structure CaptureEnv where
  mkdirFault : Bool
  newPageFault : Bool
  gotoFault : Bool
  foundPdfs : List (List Char)
  html : List Char
  frames : List FrameTree
  html2 : List Char
  dlReqFault : Bool
  dlStatus : Nat
  dlBodyFault : Bool
  fitzAvail : Bool
  pdfPageCount : Nat
  vLoadOk : Bool
  vSelFound : Bool
  vSnapOk : Nat → Bool
  vAdvOk : Nat → Bool

/-- Observable effects of one capture session. -/
structure CaptureFx where
  folderCreated : Bool
  pdfDirCreated : Bool
  pagesDirCreated : Bool
  savedPdf : Option (List Char)
  downloadCalled : Bool
  downloadOk : Bool
  convertCalled : Bool
  artifactCount : Nat
  closeAttempted : Bool
deriving DecidableEq, Repr

/-- Effects of a session whose guarded region faulted immediately (the
`except` branch plus the `finally` branch of `capture_single`). -/
def gotoFaultFx : CaptureFx :=
  { folderCreated := true, pdfDirCreated := false, pagesDirCreated := false,
    savedPdf := none, downloadCalled := false, downloadOk := false,
    convertCalled := false, artifactCount := 0, closeAttempted := true }

/-- The source's `CONVERT_PDF_TO_PNG` configuration constant (line 12). -/
def CONVERT_PDF_TO_PNG : Bool := true

/-- The dispatch on the located content descriptor inside the guarded
region of `capture_single` (lines 291-311), with the `finally` close. -/
def capture_dispatch (e : CaptureEnv) (folder : List Char) : CaptureFx :=
  match locateContent e.foundPdfs e.html e.frames e.html2 with
  | ContentDescriptor.document u =>
    let path := folder ++ "/PDF/".data ++ pdf_name u
    let dl := download_pdf e.dlReqFault e.dlStatus e.dlBodyFault
    if dl.1 then
      let conv := if CONVERT_PDF_TO_PNG then convert_pdf_to_images e.fitzAvail e.pdfPageCount
        else { count := 0, pagesDirCreated := false }
      { folderCreated := true, pdfDirCreated := true,
        pagesDirCreated := conv.pagesDirCreated,
        savedPdf := if dl.2 then some path else none,
        downloadCalled := true, downloadOk := true,
        convertCalled := CONVERT_PDF_TO_PNG, artifactCount := conv.count,
        closeAttempted := true }
    else
      { folderCreated := true, pdfDirCreated := true, pagesDirCreated := false,
        savedPdf := if dl.2 then some path else none,
        downloadCalled := true, downloadOk := false,
        convertCalled := false, artifactCount := 0, closeAttempted := true }
  | ContentDescriptor.viewer _ =>
    { folderCreated := true, pdfDirCreated := false,
      pagesDirCreated := e.vLoadOk && e.vSelFound,
      savedPdf := none, downloadCalled := false, downloadOk := false,
      convertCalled := false,
      artifactCount := screenshot_flipbook_index e.vLoadOk e.vSelFound e.vSnapOk e.vAdvOk,
      closeAttempted := true }
  | ContentDescriptor.noContent =>
    { folderCreated := true, pdfDirCreated := false, pagesDirCreated := false,
      savedPdf := none, downloadCalled := false, downloadOk := false,
      convertCalled := false, artifactCount := 0, closeAttempted := true }

/-- Body of the guarded region: a fault there is caught at the session
boundary, after which the `finally` close still runs. -/
def capture_body (e : CaptureEnv) (folder : List Char) : CaptureFx :=
  if e.gotoFault then gotoFaultFx else capture_dispatch e folder

/-- `capture_single(promo, browser)`: folder creation and page creation
precede the `try` block, so a fault in either propagates out of the
function (`Except.error`); every fault inside the guarded region is
caught and converted, and the page close is attempted on every exit of
that region. -/
def capture_single (e : CaptureEnv) (folder : List Char) : Except (List Char) CaptureFx :=
  if e.mkdirFault then Except.error "mkdir".data
  else if e.newPageFault then Except.error "new_page".data
  else Except.ok (capture_body e folder)

/-- The per-listing loop of `main` (lines 478-479): listings are processed
strictly sequentially; an uncaught fault from `capture_single` aborts the
loop, leaving the remaining listings unprocessed. -/
def runBatch : List (CaptureEnv × List Char) → List CaptureFx × Option (List Char)
  | [] => ([], none)
  | (e, folder) :: rest =>
    match capture_single e folder with
    | Except.ok fx =>
      let r := runBatch rest
      (fx :: r.1, r.2)
    | Except.error s => ([], some s)

/-! ### Promo discovery deduplication (`get_promos`, lines 443-451) -/

/-- One discovered listing record as built by `get_promos`. -/
structure Promo where
  title : List Char
  link : List Char
  folder : List Char
deriving DecidableEq, Repr

/-- The dedupe loop at the end of `get_promos`: walk the accumulated
listing records in order, keeping a record only when its link has not
been seen before (`seen` is the set of already-kept links). -/
def dedupeGo (seen : List (List Char)) : List Promo → List Promo
  | [] => []
  | p :: rest =>
    if p.link ∈ seen then dedupeGo seen rest
    else p :: dedupeGo (p.link :: seen) rest

/-- `get_promos`' final deduplication by link, first occurrence wins. -/
def dedupeByLink (ps : List Promo) : List Promo :=
  dedupeGo [] ps

/-! ### Spec-side characterizations and concrete demo environments -/

/-- The suffix of `s` after the last occurrence of `sep` (the whole of
`s` when `sep` does not occur): the spec's "substring of the URL after
its last slash", used to characterize `split(sep)[-1]`. -/
def afterLastSep (sep : Char) : List Char → List Char
  | [] => []
  | c :: rest =>
    if sep ∈ rest then afterLastSep sep rest
    else if c = sep then rest
    else c :: rest

/-- A fault-free capture environment whose page has no content at all. -/
def demoEnvOk : CaptureEnv :=
  { mkdirFault := false, newPageFault := false, gotoFault := false,
    foundPdfs := [], html := [], frames := [], html2 := [],
    dlReqFault := false, dlStatus := 200, dlBodyFault := false,
    fitzAvail := true, pdfPageCount := 3,
    vLoadOk := true, vSelFound := true,
    vSnapOk := fun _ => true, vAdvOk := fun _ => false }

/-- Like `demoEnvOk` but the output-folder creation (line 249, before the
guarded region) faults. -/
def demoEnvMkdirFault : CaptureEnv :=
  { demoEnvOk with mkdirFault := true }

/-- A session that locates a network-observed document whose download
answers with status 404. -/
def demoEnv404 : CaptureEnv :=
  { demoEnvOk with foundPdfs := ["https://x/a.pdf".data], dlStatus := 404 }

/-- A session that locates and successfully downloads a document in an
environment without the rasterizer library. -/
def demoEnvNoFitz : CaptureEnv :=
  { demoEnvOk with foundPdfs := ["https://x/a.pdf".data], fitzAvail := false }

/-! ## Helper lemmas -/

theorem stripLit_append (lit r : List Char) : stripLit lit (lit ++ r) = some r := by
  induction lit with
  | nil => rfl
  | cons c cs ih => simp [stripLit, ih]

theorem takeWhile_middle {α : Type} (p : α → Bool) (b : α) (r : List α) (hb : p b = false) :
    ∀ l : List α, (∀ c ∈ l, p c = true) →
      (l ++ b :: r).takeWhile p = l ∧ (l ++ b :: r).dropWhile p = b :: r := by
  intro l
  induction l with
  | nil => intro _; simp [List.takeWhile, List.dropWhile, hb]
  | cons c cs ih =>
    intro hl
    have hc : p c = true := hl c (by simp)
    have ihh := ih (fun x hx => hl x (by simp [hx]))
    simp [List.takeWhile, List.dropWhile, hc, ihh.1, ihh.2]

theorem matchPdfUrlAt_cons_ne (c : Char) (s : List Char) (h : c ≠ '"') :
    matchPdfUrlAt (c :: s) = none := by
  have hlit : "\"pdfUrl\"".data = '"' :: "pdfUrl\"".data := rfl
  unfold matchPdfUrlAt
  rw [hlit]
  simp [stripLit, h]

theorem findPdfUrlField_append (pre s : List Char) (hpre : ∀ c ∈ pre, c ≠ '"') :
    findPdfUrlField (pre ++ s) = findPdfUrlField s := by
  induction pre with
  | nil => rfl
  | cons c cs ih =>
    have hc : c ≠ '"' := hpre c (by simp)
    simp only [List.cons_append, findPdfUrlField, matchPdfUrlAt_cons_ne c _ hc]
    exact ih (fun x hx => hpre x (by simp [hx]))

theorem matchPdfUrlAt_field (url post : List Char) (hne : url ≠ [])
    (hq : ∀ c ∈ url, c ≠ '"') :
    matchPdfUrlAt ("\"pdfUrl\"".data ++ ':' :: '"' :: (url ++ '"' :: post)) = some url := by
  have hpred : ∀ c ∈ url, (fun c => !(c == '"')) c = true := by
    intro c hc
    simpa using hq c hc
  have htw := takeWhile_middle (fun c => !(c == '"')) '"' post (by simp) url hpred
  unfold matchPdfUrlAt
  rw [stripLit_append]
  have h1 : pyIsSpace ':' = false := by decide
  have h2 : pyIsSpace '"' = false := by decide
  simp only [List.dropWhile, h1, h2]
  simp only [htw.1, htw.2]
  simp [hne]

/-! ## C7: inline structured-field scan -/

/-- C7: for page markup containing the structured field
`"pdfUrl":"<url>"` (with no stray quote before it), the inline-markup
scan returns the named document URL with escaped path separators
unescaped; in particular the spec's concrete scenario markup
`"pdfUrl":"https:\/\/x\/y.pdf"` yields the document descriptor with
sourceURL `https://x/y.pdf`. -/
theorem C7_inline_structured_field_scan :
    (∀ pre url post : List Char, (∀ c ∈ pre, c ≠ '"') → url ≠ [] →
      (∀ c ∈ url, c ≠ '"') →
      extract_pdf_url_from_text (pre ++ "\"pdfUrl\":\"".data ++ (url ++ '"' :: post))
        = some (unescapeSlashes url)) ∧
    extract_pdf_url_from_text "\"pdfUrl\":\"https:\\/\\/x\\/y.pdf\"".data
      = some "https://x/y.pdf".data ∧
    locateContent [] "\"pdfUrl\":\"https:\\/\\/x\\/y.pdf\"".data [] []
      = ContentDescriptor.document "https://x/y.pdf".data := by
  refine ⟨?_, by decide, by decide⟩
  intro pre url post hpre hne hq
  have hsplit : "\"pdfUrl\":\"".data = "\"pdfUrl\"".data ++ ':' :: '"' :: [] := rfl
  have hassoc : pre ++ "\"pdfUrl\":\"".data ++ (url ++ '"' :: post)
      = pre ++ ("\"pdfUrl\"".data ++ ':' :: '"' :: (url ++ '"' :: post)) := by
    rw [hsplit]
    simp
  rw [hassoc]
  have hnil : pre ++ ("\"pdfUrl\"".data ++ ':' :: '"' :: (url ++ '"' :: post)) ≠ [] := by
    simp
  unfold extract_pdf_url_from_text
  rw [if_neg hnil, findPdfUrlField_append pre _ hpre]
  have hcons : "\"pdfUrl\"".data ++ ':' :: '"' :: (url ++ '"' :: post)
      = '"' :: ("pdfUrl\"".data ++ ':' :: '"' :: (url ++ '"' :: post)) := rfl
  rw [hcons]
  simp only [findPdfUrlField]
  rw [← hcons, matchPdfUrlAt_field url post hne hq]

/-- C7 witness: the generalized theorem applied at the spec's concrete
scenario input. -/
theorem C7_witness :
    extract_pdf_url_from_text
      (([] : List Char) ++ "\"pdfUrl\":\"".data ++ ("https:\\/\\/x\\/y.pdf".data ++ '"' :: []))
      = some (unescapeSlashes "https:\\/\\/x\\/y.pdf".data) :=
  C7_inline_structured_field_scan.1 [] "https:\\/\\/x\\/y.pdf".data []
    (by decide) (by decide) (by decide)

/-! ## C9: filesystem-safe folder key -/

/-- C9 counterexample: for the title `"/ /"`, removing the forbidden
characters and then stripping surrounding whitespace leaves the empty
string, yet `safe` returns the single-space string, not the `"untitled"`
placeholder (the source strips whitespace BEFORE removing forbidden
characters). -/
theorem C9_counterexample :
    pyStrip (removeForbidden "/ /".data) = [] ∧ safe "/ /".data ≠ "untitled".data := by
  decide

/-- C9 (amended): for every title, `safe` is non-empty and contains none
of the forbidden characters; and when stripping surrounding whitespace
first and then the forbidden characters leaves an empty string, it falls
back to the fixed placeholder `"untitled"`. -/
theorem C9_folder_key_safe (t : List Char) :
    safe t ≠ [] ∧ (∀ c ∈ safe t, c ∉ forbiddenChars) ∧
      (removeForbidden (pyStrip t) = [] → safe t = "untitled".data) := by
  by_cases h : removeForbidden (pyStrip t) = []
  · refine ⟨?_, ?_, fun _ => by simp [safe, h]⟩
    · simp only [safe, h, if_pos]
      decide
    · simp only [safe, h, if_pos]
      decide
  · refine ⟨?_, ?_, fun hh => absurd hh h⟩
    · simp only [safe, h, if_neg]
      exact h
    · intro c hc
      simp only [safe, h, if_neg] at hc
      have := List.mem_filter.mp hc
      exact of_decide_eq_true this.2

/-- C9 witness: a title consisting only of forbidden characters falls
back to the placeholder. -/
theorem C9_folder_key_safe_witness : safe "///".data = "untitled".data :=
  (C9_folder_key_safe "///".data).2.2 (by decide)

/-! ## C8: deduplication by canonical link -/

theorem dedupeGo_sublist : ∀ (ps : List Promo) (seen : List (List Char)),
    List.Sublist (dedupeGo seen ps) ps := by
  intro ps
  induction ps with
  | nil => intro seen; simp [dedupeGo]
  | cons p rest ih =>
    intro seen
    by_cases h : p.link ∈ seen
    · simpa [dedupeGo, h] using (ih seen).cons p
    · simpa [dedupeGo, h] using (ih (p.link :: seen)).cons₂ p

theorem mem_dedupeGo : ∀ (ps : List Promo) (seen : List (List Char)) (q : Promo),
    q ∈ dedupeGo seen ps → q.link ∉ seen := by
  intro ps
  induction ps with
  | nil => intro seen q hq; simp [dedupeGo] at hq
  | cons p rest ih =>
    intro seen q hq
    by_cases h : p.link ∈ seen
    · exact ih seen q (by simpa [dedupeGo, h] using hq)
    · simp only [dedupeGo, if_neg h, List.mem_cons] at hq
      rcases hq with rfl | hq
      · exact h
      · have hnotin := ih (p.link :: seen) q hq
        exact fun hc => hnotin (List.mem_cons_of_mem _ hc)

theorem dedupeGo_links_nodup : ∀ (ps : List Promo) (seen : List (List Char)),
    ((dedupeGo seen ps).map Promo.link).Nodup := by
  intro ps
  induction ps with
  | nil => intro seen; simp [dedupeGo]
  | cons p rest ih =>
    intro seen
    by_cases h : p.link ∈ seen
    · simpa [dedupeGo, h] using ih seen
    · simp only [dedupeGo, if_neg h, List.map_cons, List.nodup_cons]
      refine ⟨?_, ih (p.link :: seen)⟩
      intro hmem
      rcases List.mem_map.mp hmem with ⟨q, hq, hql⟩
      have := mem_dedupeGo rest (p.link :: seen) q hq
      exact this (by simp [hql])

theorem dedupeGo_find? : ∀ (ps : List Promo) (seen : List (List Char)) (l : List Char),
    l ∉ seen →
      (dedupeGo seen ps).find? (fun q => decide (q.link = l))
        = ps.find? (fun q => decide (q.link = l)) := by
  intro ps
  induction ps with
  | nil => intro seen l _; simp [dedupeGo]
  | cons p rest ih =>
    intro seen l hl
    by_cases h : p.link ∈ seen
    · have hne : p.link ≠ l := fun he => hl (he ▸ h)
      rw [dedupeGo, if_pos h, ih seen l hl, List.find?]
      simp [hne]
    · rw [dedupeGo, if_neg h]
      by_cases he : p.link = l
      · simp [List.find?, he]
      · have hl2 : l ∉ p.link :: seen := by
          simp only [List.mem_cons]
          rintro (rfl | hc)
          · exact he rfl
          · exact hl hc
        rw [List.find?, List.find?]
        rw [decide_eq_false he]
        exact ih (p.link :: seen) l hl2

/-- C8: discovery output is unique by canonical link: the dedupe pass
preserves first-seen order (its output is a sublist of its input), the
kept links are pairwise distinct, for every link the kept record is the
first-seen record with that link (hence the first-seen title), and two
records sharing a link collapse to exactly the first. -/
theorem C8_dedupe_by_link :
    (∀ ps : List Promo, List.Sublist (dedupeByLink ps) ps) ∧
    (∀ ps : List Promo, ((dedupeByLink ps).map Promo.link).Nodup) ∧
    (∀ (ps : List Promo) (l : List Char),
      (dedupeByLink ps).find? (fun q => decide (q.link = l))
        = ps.find? (fun q => decide (q.link = l))) ∧
    (∀ p q : Promo, p.link = q.link → dedupeByLink [p, q] = [p]) := by
  refine ⟨fun ps => dedupeGo_sublist ps [], fun ps => dedupeGo_links_nodup ps [],
    fun ps l => dedupeGo_find? ps [] l (by simp), ?_⟩
  intro p q h
  simp [dedupeByLink, dedupeGo, h]

/-- C8 witness: two listings with the same canonical link and different
titles collapse to the first-seen one. -/
theorem C8_witness :
    dedupeByLink [⟨"A".data, "https://l".data, "A".data⟩,
      ⟨"B".data, "https://l".data, "B".data⟩]
      = [⟨"A".data, "https://l".data, "A".data⟩] :=
  C8_dedupe_by_link.2.2.2 ⟨"A".data, "https://l".data, "A".data⟩
    ⟨"B".data, "https://l".data, "B".data⟩ rfl

/-! ## C10: saved-document filename derivation -/

theorem pySplit_ne_nil (sep : Char) (s : List Char) : pySplit sep s ≠ [] := by
  cases s with
  | nil => simp [pySplit]
  | cons c rest =>
    simp only [pySplit]
    cases pySplit sep rest with
    | nil => simp
    | cons h t => by_cases hc : c = sep <;> simp [hc]

theorem pySplit_head (sep : Char) : ∀ s : List Char,
    (pySplit sep s).headD [] = s.takeWhile (fun c => !(c == sep)) := by
  intro s
  induction s with
  | nil => rfl
  | cons c rest ih =>
    cases hps : pySplit sep rest with
    | nil => exact absurd hps (pySplit_ne_nil sep rest)
    | cons h t =>
      rw [hps] at ih
      by_cases hc : c = sep
      · simp [pySplit, hps, hc, List.takeWhile]
      · have hc2 : (c == sep) = false := by simp [hc]
        simp only [pySplit, hps, if_neg hc, List.headD, List.takeWhile, hc2,
          Bool.not_false]
        simp only [List.headD] at ih
        simp [ih]

theorem pySplit_no_sep (sep : Char) : ∀ s : List Char, sep ∉ s → pySplit sep s = [s] := by
  intro s
  induction s with
  | nil => intro _; rfl
  | cons c rest ih =>
    intro hmem
    have hc : c ≠ sep := fun he => hmem (by simp [he])
    have hr : sep ∉ rest := fun hm => hmem (List.mem_cons_of_mem _ hm)
    simp [pySplit, ih hr, hc]

theorem pySplit_mem_len (sep : Char) : ∀ s : List Char, sep ∈ s →
    2 ≤ (pySplit sep s).length := by
  intro s
  induction s with
  | nil => intro h; simp at h
  | cons c rest ih =>
    intro hmem
    cases hps : pySplit sep rest with
    | nil => exact absurd hps (pySplit_ne_nil sep rest)
    | cons h t =>
      by_cases hc : c = sep
      · simp [pySplit, hps, hc]
      · have hr : sep ∈ rest := by
          rcases List.mem_cons.mp hmem with he | hr
          · exact absurd he.symm hc
          · exact hr
        have := ih hr
        rw [hps] at this
        simp only [List.length_cons] at this
        simp [pySplit, hps, hc]
        omega

theorem afterLastSep_no_sep (sep : Char) : ∀ s : List Char, sep ∉ s →
    afterLastSep sep s = s := by
  intro s
  induction s with
  | nil => intro _; rfl
  | cons c rest _ =>
    intro hmem
    have hc : c ≠ sep := fun he => hmem (by simp [he])
    have hr : sep ∉ rest := fun hm => hmem (List.mem_cons_of_mem _ hm)
    simp [afterLastSep, hr, hc]

theorem afterLastSep_append (sep : Char) (t : List Char) (ht : sep ∉ t) :
    ∀ p : List Char, afterLastSep sep (p ++ sep :: t) = t := by
  intro p
  induction p with
  | nil => simp [afterLastSep, ht]
  | cons c p ih =>
    have hmem : sep ∈ p ++ sep :: t := by simp
    simp [afterLastSep, hmem, ih]

theorem pySplit_getLast (sep : Char) : ∀ s : List Char,
    (pySplit sep s).getLastD [] = afterLastSep sep s := by
  intro s
  induction s with
  | nil => rfl
  | cons c rest ih =>
    cases hps : pySplit sep rest with
    | nil => exact absurd hps (pySplit_ne_nil sep rest)
    | cons h t =>
      rw [hps] at ih
      by_cases hm : sep ∈ rest
      · have hlen := pySplit_mem_len sep rest hm
        rw [hps] at hlen
        cases t with
        | nil => simp at hlen
        | cons t1 ts =>
          rw [List.getLastD_cons, List.getLastD_cons] at ih
          by_cases hc : c = sep
          · simp only [pySplit, hps, if_pos hc]
            rw [List.getLastD_cons, List.getLastD_cons, List.getLastD_cons]
            simp only [afterLastSep, hm, ite_true]
            exact ih
          · simp only [pySplit, hps, if_neg hc]
            rw [List.getLastD_cons, List.getLastD_cons]
            simp only [afterLastSep, hm, ite_true]
            exact ih
      · have h3 := pySplit_no_sep sep rest hm
        rw [hps] at h3
        injection h3 with h3h h3t
        subst h3h
        subst h3t
        by_cases hc : c = sep
        · simp [pySplit, hps, hc, afterLastSep, hm]
        · simp [pySplit, hps, hc, afterLastSep, hm]

theorem takeWhile_all {α : Type} (p : α → Bool) : ∀ l : List α,
    (∀ c ∈ l, p c = true) → l.takeWhile p = l := by
  intro l
  induction l with
  | nil => intro _; rfl
  | cons c rest ih =>
    intro h
    simp [List.takeWhile, h c (by simp), ih (fun x hx => h x (by simp [hx]))]

/-- C10: the filename under which a located document is saved is exactly
the substring of its source URL after the last slash, truncated at the
first question mark (dropping the query suffix); and in the capture
pipeline the document is written at `<folder>/PDF/<that name>`. -/
theorem C10_pdf_filename :
    (∀ url : List Char,
      pdf_name url = (afterLastSep '/' url).takeWhile (fun c => !(c == '?'))) ∧
    (∀ p name q : List Char, '/' ∉ name → '/' ∉ q → '?' ∉ name →
      pdf_name (p ++ '/' :: (name ++ '?' :: q)) = name) ∧
    (∀ p name : List Char, '/' ∉ name → '?' ∉ name →
      pdf_name (p ++ '/' :: name) = name) ∧
    (∀ (e : CaptureEnv) (folder u : List Char), e.gotoFault = false →
      locateContent e.foundPdfs e.html e.frames e.html2 = ContentDescriptor.document u →
      e.dlReqFault = false → e.dlStatus = 200 → e.dlBodyFault = false →
      (capture_body e folder).savedPdf = some (folder ++ "/PDF/".data ++ pdf_name u)) := by
  have hchar : ∀ url : List Char,
      pdf_name url = (afterLastSep '/' url).takeWhile (fun c => !(c == '?')) := by
    intro url
    unfold pdf_name
    rw [pySplit_getLast, pySplit_head]
  refine ⟨hchar, ?_, ?_, ?_⟩
  · intro p name q h1 h2 h3
    have hnot : '/' ∉ name ++ '?' :: q := by
      intro hm
      rcases List.mem_append.mp hm with hm | hm
      · exact h1 hm
      · rcases List.mem_cons.mp hm with hm | hm
        · exact absurd hm (by decide)
        · exact h2 hm
    rw [hchar, afterLastSep_append '/' _ hnot]
    have hpred : ∀ c ∈ name, (fun c => !(c == '?')) c = true := by
      intro c hc
      have : c ≠ '?' := fun he => h3 (he ▸ hc)
      simpa using this
    exact (takeWhile_middle (fun c => !(c == '?')) '?' q (by simp) name hpred).1
  · intro p name h1 h3
    rw [hchar, afterLastSep_append '/' _ h1]
    refine takeWhile_all _ name ?_
    intro c hc
    have : c ≠ '?' := fun he => h3 (he ▸ hc)
    simpa using this
  · intro e folder u hg hd hr hs hb
    simp [capture_body, hg, capture_dispatch, hd, download_pdf, hr, hs, hb,
      CONVERT_PDF_TO_PNG]

/-- C10 witness: a URL with path segments and a query string yields the
final path segment without the query suffix. -/
theorem C10_witness :
    pdf_name ("https://x/y".data ++ '/' :: ("z.pdf".data ++ '?' :: "sig=1".data))
      = "z.pdf".data :=
  C10_pdf_filename.2.1 "https://x/y".data "z.pdf".data "sig=1".data
    (by decide) (by decide) (by decide)

/-! ## C1: detection-strategy precedence -/

/-- C1: the Content Locator's strategies are consulted in the fixed order
network-observed URL, structured-field scan, generic pattern scan,
recursive frame scan, viewer-index pattern, each only when all previous
ones found nothing; a network-observed URL wins over any inline-markup
URL, and when no strategy matches the descriptor kind is none. -/
theorem C1_strategy_precedence :
    (∀ (u : List Char) (rest : List (List Char)) (html : List Char)
        (frames : List FrameTree) (html2 : List Char),
      locateContent (u :: rest) html frames html2 = ContentDescriptor.document u) ∧
    (∀ text u, findPdfUrlField text = some u →
      extract_pdf_url_from_text text = some (unescapeSlashes u)) ∧
    (∀ text, findPdfUrlField text = none →
      extract_pdf_url_from_text text = findGenericPdf text) ∧
    (∀ html frames html2 u, extract_pdf_url_from_text html = some u →
      locateContent [] html frames html2 = ContentDescriptor.document u) ∧
    (∀ html frames html2 u, extract_pdf_url_from_text html = none →
      extract_pdf_from_iframes frames = some u →
      locateContent [] html frames html2 = ContentDescriptor.document u) ∧
    (∀ html frames html2 i, extract_pdf_url_from_text html = none →
      extract_pdf_from_iframes frames = none →
      extract_flipbook_index_html html2 = some i →
      locateContent [] html frames html2 = ContentDescriptor.viewer i) ∧
    (∀ html frames html2, extract_pdf_url_from_text html = none →
      extract_pdf_from_iframes frames = none →
      extract_flipbook_index_html html2 = none →
      locateContent [] html frames html2 = ContentDescriptor.noContent) := by
  refine ⟨?_, ?_, ?_, ?_, ?_, ?_, ?_⟩
  · intro u rest html frames html2
    rfl
  · intro text u h
    cases text with
    | nil => simp [findPdfUrlField] at h
    | cons c cs => simp [extract_pdf_url_from_text, h]
  · intro text h
    cases text with
    | nil => rfl
    | cons c cs => simp [extract_pdf_url_from_text, h]
  · intro html frames html2 u h
    simp [locateContent, h]
  · intro html frames html2 u h1 h2
    simp [locateContent, h1, h2]
  · intro html frames html2 i h1 h2 h3
    simp [locateContent, h1, h2, h3]
  · intro html frames html2 h1 h2 h3
    simp [locateContent, h1, h2, h3]

/-- C1 witness: a page with no network-observed URL, inert markup, no
frames and no viewer index yields the none descriptor. -/
theorem C1_witness :
    locateContent [] "plain markup".data [] "plain markup".data
      = ContentDescriptor.noContent :=
  C1_strategy_precedence.2.2.2.2.2.2 "plain markup".data [] "plain markup".data
    (by decide) (by simp [extract_pdf_from_iframes, findPdfInFrameList])
    (by decide)

/-! ## C3: recursive frame scan -/

theorem depth_pos (t : FrameTree) : 0 < FrameTree.depth t := by
  cases t with
  | node c ch =>
    simp only [FrameTree.depth]
    omega

theorem frameTree_ind (P : FrameTree → Prop) (Q : List FrameTree → Prop)
    (h1 : ∀ c ch, Q ch → P (FrameTree.node c ch))
    (h2 : Q [])
    (h3 : ∀ f fs, P f → Q fs → Q (f :: fs)) :
    (∀ t, P t) ∧ (∀ fs, Q fs) := by
  have key : ∀ n : Nat, (∀ t, FrameTree.depth t ≤ n → P t) ∧
      (∀ fs, depthList fs ≤ n → Q fs) := by
    intro n
    induction n with
    | zero =>
      constructor
      · intro t ht
        exact absurd ht (by have := depth_pos t; omega)
      · intro fs hfs
        cases fs with
        | nil => exact h2
        | cons f fs =>
          exfalso
          simp only [depthList] at hfs
          rcases Nat.max_le.mp hfs with ⟨ha, _⟩
          have := depth_pos f
          omega
    | succ n ih =>
      have ht : ∀ t, FrameTree.depth t ≤ n + 1 → P t := by
        intro t hdep
        cases t with
        | node c ch =>
          apply h1
          apply ih.2
          simp only [FrameTree.depth] at hdep
          omega
      refine ⟨ht, ?_⟩
      intro fs
      induction fs with
      | nil => exact fun _ => h2
      | cons f fs ihfs =>
        intro hdep
        simp only [depthList] at hdep
        rcases Nat.max_le.mp hdep with ⟨ha, hb⟩
        exact h3 f fs (ht f ha) (ihfs hb)
  exact ⟨fun t => (key (FrameTree.depth t)).1 t (Nat.le_refl _),
    fun fs => (key (depthList fs)).2 fs (Nat.le_refl _)⟩

theorem find_preorder_pair :
    (∀ t, find_pdf_in_frames_recursively t
        = (preorderContents t).findSome? frameContentScan) ∧
    (∀ fs, findPdfInFrameList fs
        = (preorderList fs).findSome? frameContentScan) := by
  apply frameTree_ind
  · intro c ch hQ
    simp only [find_pdf_in_frames_recursively, preorderContents, List.findSome?_cons]
    cases h : frameContentScan c <;> simp [h, hQ]
  · simp [findPdfInFrameList, preorderList]
  · intro f fs hP hQ
    simp only [findPdfInFrameList, preorderList, List.findSome?_append, ← hP, ← hQ]
    cases h : find_pdf_in_frames_recursively f <;> simp [h, Option.or]

theorem findPdfFuel_sound : ∀ fuel : Nat, ∀ t, FrameTree.depth t ≤ fuel →
    findPdfFuel fuel t = some (find_pdf_in_frames_recursively t) := by
  intro fuel
  induction fuel with
  | zero =>
    intro t ht
    exact absurd ht (by have := depth_pos t; omega)
  | succ n ih =>
    have hlist : ∀ fs, depthList fs ≤ n →
        findPdfFuelList n fs = some (findPdfInFrameList fs) := by
      intro fs
      induction fs with
      | nil =>
        intro _
        simp [findPdfFuelList, findPdfInFrameList]
      | cons f fs ihfs =>
        intro hd
        simp only [depthList] at hd
        rcases Nat.max_le.mp hd with ⟨ha, hb⟩
        simp only [findPdfFuelList, findPdfInFrameList, ih f ha]
        cases h : find_pdf_in_frames_recursively f <;> simp [h, ihfs hb]
    intro t ht
    cases t with
    | node c ch =>
      simp only [FrameTree.depth] at ht
      simp only [findPdfFuel, find_pdf_in_frames_recursively]
      cases h : frameContentScan c with
      | some u => simp [h]
      | none =>
        simp only [h]
        exact hlist ch (by omega)

/-- C3 counterexample: a nested context whose markup carries the document
reference only as the structured `pdfUrl` field with escaped separators:
the inline-markup scan extracts it, but the recursive frame scan — which
applies only the generic document-extension pattern, not both patterns of
the inline scan — returns none. -/
theorem C3_counterexample :
    find_pdf_in_frames_recursively
      (FrameTree.node (some "promo page".data)
        [FrameTree.node (some "\"pdfUrl\":\"https:\\/\\/x\\/y.pdf\"".data) []])
      = none ∧
    extract_pdf_url_from_text "\"pdfUrl\":\"https:\\/\\/x\\/y.pdf\"".data
      = some "https://x/y.pdf".data := by
  constructor
  · have h1 : findGenericPdf "promo page".data = none := by decide
    have h2 : findGenericPdf "\"pdfUrl\":\"https:\\/\\/x\\/y.pdf\"".data = none := by
      decide
    simp [find_pdf_in_frames_recursively, findPdfInFrameList, frameContentScan, h1, h2]
  · decide

/-- C3 (amended): the recursive frame scan is a depth-first search of the
browsing-context tree, visiting the root first and then each child in
document order (its result is the first hit of the generic
document-extension pattern — the only pattern it applies, unlike the
two-pattern inline scan — over the preorder listing of context markups),
returns none after exhausting a tree with no reference, and completes
with recursion depth bounded by the actual tree depth. -/
theorem C3_frame_scan_dfs :
    (∀ t : FrameTree, find_pdf_in_frames_recursively t
        = (preorderContents t).findSome? frameContentScan) ∧
    (∀ fs : List FrameTree, extract_pdf_from_iframes fs
        = (preorderList fs).findSome? frameContentScan) ∧
    (∀ t : FrameTree, (∀ c ∈ preorderContents t, frameContentScan c = none) →
      find_pdf_in_frames_recursively t = none) ∧
    (∀ (fuel : Nat) (t : FrameTree), FrameTree.depth t ≤ fuel →
      findPdfFuel fuel t = some (find_pdf_in_frames_recursively t)) := by
  refine ⟨find_preorder_pair.1, ?_, ?_, findPdfFuel_sound⟩
  · intro fs
    simpa [extract_pdf_from_iframes] using find_preorder_pair.2 fs
  · intro t h
    rw [find_preorder_pair.1 t]
    exact List.findSome?_eq_none_iff.mpr h

/-- C3 witness: on a tree whose only document reference sits in a
grandchild context, the fuel-bounded scan with fuel equal to the tree
depth completes and returns that reference. -/
theorem C3_witness :
    findPdfFuel 3
      (FrameTree.node (some "root".data)
        [FrameTree.node (some "mid".data)
          [FrameTree.node (some "see https://g.h/doc.pdf here".data) []],
         FrameTree.node (some "sibling".data) []])
      = some (some "https://g.h/doc.pdf".data) := by
  have hd : FrameTree.depth
      (FrameTree.node (some "root".data)
        [FrameTree.node (some "mid".data)
          [FrameTree.node (some "see https://g.h/doc.pdf here".data) []],
         FrameTree.node (some "sibling".data) []]) ≤ 3 := by
    simp [FrameTree.depth, depthList]
  have h := C3_frame_scan_dfs.2.2.2 3
    (FrameTree.node (some "root".data)
      [FrameTree.node (some "mid".data)
        [FrameTree.node (some "see https://g.h/doc.pdf here".data) []],
       FrameTree.node (some "sibling".data) []]) hd
  rw [h]
  have h1 : findGenericPdf "root".data = none := by decide
  have h2 : findGenericPdf "mid".data = none := by decide
  have h3 : findGenericPdf "see https://g.h/doc.pdf here".data
      = some "https://g.h/doc.pdf".data := by decide
  simp [find_pdf_in_frames_recursively, findPdfInFrameList, frameContentScan,
    h1, h2, h3]

/-! ## C2: per-listing fault isolation -/

theorem capture_body_close (e : CaptureEnv) (folder : List Char) :
    (capture_body e folder).closeAttempted = true := by
  unfold capture_body
  by_cases hg : e.gotoFault = true
  · simp [hg, gotoFaultFx]
  · rw [Bool.not_eq_true] at hg
    simp only [hg, Bool.false_eq_true, if_false]
    unfold capture_dispatch
    cases hd : locateContent e.foundPdfs e.html e.frames e.html2 with
    | document u =>
      by_cases hdl : (download_pdf e.dlReqFault e.dlStatus e.dlBodyFault).1 = true
      · simp [hdl]
      · simp [hdl]
    | viewer i => simp
    | noContent => simp

theorem runBatch_cons_ok (e : CaptureEnv) (folder : List Char)
    (rest : List (CaptureEnv × List Char))
    (h1 : e.mkdirFault = false) (h2 : e.newPageFault = false) :
    runBatch ((e, folder) :: rest)
      = ((capture_body e folder) :: (runBatch rest).1, (runBatch rest).2) := by
  simp [runBatch, capture_single, h1, h2]

/-- C2 counterexample: a fault in the output-folder creation of the
first listing (line 249, which precedes the guarded region of
`capture_single`) propagates out of the per-listing boundary, so the
second listing — which alone would be processed — is never processed. -/
theorem C2_counterexample :
    (runBatch [(demoEnvMkdirFault, "A".data), (demoEnvOk, "B".data)]).1.length = 0 ∧
    (runBatch [(demoEnvOk, "B".data)]).1.length = 1 := by
  constructor <;> rfl

/-- C2 (amended): every fault raised inside the guarded region of a
capture session (navigation onward) is caught at the per-listing
boundary, and the page close is attempted on every exit path of that
region; listings whose session setup (folder creation, page creation,
before the guarded region) does not fault complete without propagating
and never interrupt the processing of subsequent listings — but a
session-setup fault propagates and aborts the remaining batch. -/
theorem C2_fault_isolation :
    (∀ (e : CaptureEnv) (folder : List Char),
      e.mkdirFault = false → e.newPageFault = false →
      capture_single e folder = Except.ok (capture_body e folder)) ∧
    (∀ (e : CaptureEnv) (folder : List Char),
      (capture_body e folder).closeAttempted = true) ∧
    (∀ (e : CaptureEnv) (folder : List Char) (rest : List (CaptureEnv × List Char)),
      e.mkdirFault = false → e.newPageFault = false →
      (runBatch ((e, folder) :: rest)).1.length = 1 + (runBatch rest).1.length ∧
      (runBatch ((e, folder) :: rest)).2 = (runBatch rest).2) := by
  refine ⟨?_, capture_body_close, ?_⟩
  · intro e folder h1 h2
    simp [capture_single, h1, h2]
  · intro e folder rest h1 h2
    rw [runBatch_cons_ok e folder rest h1 h2]
    constructor
    · simp [Nat.add_comm]
    · rfl

/-- C2 witness: a fault-free session completes without propagating. -/
theorem C2_witness :
    capture_single demoEnvOk "B".data = Except.ok (capture_body demoEnvOk "B".data) :=
  C2_fault_isolation.1 demoEnvOk "B".data rfl rfl

/-! ## C5: download failure short-circuits -/

/-- C5: a download answering a non-success status or raising a network
fault makes the acquirer report a download failure with no rasterization
attempt, no pages directory, and no document file written (the file is
written only when the transfer fully completed); the orchestrator
proceeds to the next listing. -/
theorem C5_download_failure :
    (∀ (e : CaptureEnv) (folder u : List Char), e.gotoFault = false →
      locateContent e.foundPdfs e.html e.frames e.html2 = ContentDescriptor.document u →
      (e.dlReqFault = true ∨ e.dlStatus ≠ 200) →
      (capture_body e folder).downloadCalled = true ∧
      (capture_body e folder).downloadOk = false ∧
      (capture_body e folder).convertCalled = false ∧
      (capture_body e folder).pagesDirCreated = false ∧
      (capture_body e folder).savedPdf = none) ∧
    (∀ (e : CaptureEnv) (folder : List Char),
      (capture_body e folder).savedPdf ≠ none →
      e.dlReqFault = false ∧ e.dlStatus = 200 ∧ e.dlBodyFault = false) ∧
    (∀ (e : CaptureEnv) (folder : List Char) (rest : List (CaptureEnv × List Char)),
      e.mkdirFault = false → e.newPageFault = false →
      (runBatch ((e, folder) :: rest)).1.length = 1 + (runBatch rest).1.length) := by
  refine ⟨?_, ?_, ?_⟩
  · intro e folder u hg hd h3
    have hdl : download_pdf e.dlReqFault e.dlStatus e.dlBodyFault = (false, false) := by
      rcases h3 with h | h
      · simp [download_pdf, h]
      · by_cases hr : e.dlReqFault = true <;> simp [download_pdf, hr, h]
    simp [capture_body, hg, capture_dispatch, hd, hdl]
  · intro e folder h
    by_cases hg : e.gotoFault = true
    · exact absurd (by simp [capture_body, hg, gotoFaultFx]) h
    · rw [Bool.not_eq_true] at hg
      cases hd : locateContent e.foundPdfs e.html e.frames e.html2 with
      | document u =>
        by_cases hr : e.dlReqFault = true
        · exact absurd (by simp [capture_body, hg, capture_dispatch, hd,
            download_pdf, hr]) h
        · rw [Bool.not_eq_true] at hr
          by_cases hs : e.dlStatus = 200
          · by_cases hb : e.dlBodyFault = true
            · exact absurd (by simp [capture_body, hg, capture_dispatch, hd,
                download_pdf, hr, hs, hb]) h
            · rw [Bool.not_eq_true] at hb
              exact ⟨hr, hs, hb⟩
          · exact absurd (by simp [capture_body, hg, capture_dispatch, hd,
              download_pdf, hr, hs]) h
      | viewer i =>
        exact absurd (by simp [capture_body, hg, capture_dispatch, hd]) h
      | noContent =>
        exact absurd (by simp [capture_body, hg, capture_dispatch, hd]) h
  · intro e folder rest h1 h2
    rw [runBatch_cons_ok e folder rest h1 h2]
    simp [Nat.add_comm]

/-- C5 witness: a located document whose download answers 404 yields the
failure effects and no files. -/
theorem C5_witness :
    (capture_body demoEnv404 "A".data).downloadCalled = true ∧
    (capture_body demoEnv404 "A".data).downloadOk = false ∧
    (capture_body demoEnv404 "A".data).convertCalled = false ∧
    (capture_body demoEnv404 "A".data).pagesDirCreated = false ∧
    (capture_body demoEnv404 "A".data).savedPdf = none :=
  C5_download_failure.1 demoEnv404 "A".data "https://x/a.pdf".data rfl rfl
    (Or.inr (by decide))

/-! ## C6: rasterizer unavailable degrades gracefully -/

/-- C6: after a successful download in an environment without the
rasterizer library, the document stays saved under the listing's PDF
subdirectory, the conversion is invoked and returns 0 without creating a
pages directory or any artifacts, and no exception reaches the
orchestrator. -/
theorem C6_rasterizer_unavailable (e : CaptureEnv) (folder u : List Char)
    (h1 : e.mkdirFault = false) (h2 : e.newPageFault = false)
    (hg : e.gotoFault = false)
    (hd : locateContent e.foundPdfs e.html e.frames e.html2 = ContentDescriptor.document u)
    (hr : e.dlReqFault = false) (hs : e.dlStatus = 200) (hb : e.dlBodyFault = false)
    (hf : e.fitzAvail = false) :
    capture_single e folder = Except.ok (capture_body e folder) ∧
    (capture_body e folder).savedPdf = some (folder ++ "/PDF/".data ++ pdf_name u) ∧
    (capture_body e folder).convertCalled = true ∧
    (capture_body e folder).artifactCount = 0 ∧
    (capture_body e folder).pagesDirCreated = false ∧
    convert_pdf_to_images false e.pdfPageCount = { count := 0, pagesDirCreated := false } := by
  have hdl : download_pdf e.dlReqFault e.dlStatus e.dlBodyFault = (true, true) := by
    simp [download_pdf, hr, hs, hb]
  refine ⟨by simp [capture_single, h1, h2], ?_, ?_, ?_, ?_, by simp [convert_pdf_to_images]⟩
  all_goals
    simp [capture_body, hg, capture_dispatch, hd, hdl, CONVERT_PDF_TO_PNG,
      convert_pdf_to_images, hf]

/-- C6 witness: the degraded-success effects at a concrete fault-free
environment without the rasterizer. -/
theorem C6_witness :
    capture_single demoEnvNoFitz "A".data = Except.ok (capture_body demoEnvNoFitz "A".data) ∧
    (capture_body demoEnvNoFitz "A".data).savedPdf
      = some ("A".data ++ "/PDF/".data ++ pdf_name "https://x/a.pdf".data) ∧
    (capture_body demoEnvNoFitz "A".data).convertCalled = true ∧
    (capture_body demoEnvNoFitz "A".data).artifactCount = 0 ∧
    (capture_body demoEnvNoFitz "A".data).pagesDirCreated = false ∧
    convert_pdf_to_images false demoEnvNoFitz.pdfPageCount
      = { count := 0, pagesDirCreated := false } :=
  C6_rasterizer_unavailable demoEnvNoFitz "A".data "https://x/a.pdf".data
    rfl rfl rfl rfl rfl rfl rfl rfl

/-! ## C4: viewer pagination termination and count -/

theorem flipLoop_le (snapOk advOk : Nat → Bool) :
    ∀ fuel pageNum : Nat, flipLoop snapOk advOk pageNum fuel ≤ pageNum - 1 + fuel := by
  intro fuel
  induction fuel with
  | zero => intro p; simp [flipLoop]
  | succ n ih =>
    intro p
    simp only [flipLoop]
    by_cases hs : snapOk p = true
    · by_cases ha : advOk p = true
      · simp only [hs, ha, if_true]
        have := ih (p + 1)
        omega
      · rw [Bool.not_eq_true] at ha
        simp [hs, ha]
    · rw [Bool.not_eq_true] at hs
      simp [hs]

/-- C4: evaluation of the pagination loop at the failing input — with
every snapshot succeeding and no advance control ever present, the
first snapshot is taken and saved (one successful snapshot) yet the
function returns 0, undercounting the pages captured on the no-advance
exit path; the running ordinal is nonetheless always bounded by the
safety ceiling of 500. -/
theorem C4_flipbook_count_bug :
    screenshot_flipbook_index true true (fun _ => true) (fun _ => false) = 0 ∧
    snapSuccesses (fun _ => true) (fun _ => false) 1 500 = 1 ∧
    (∀ snapOk advOk : Nat → Bool, flipLoop snapOk advOk 1 500 ≤ 500) := by
  refine ⟨rfl, rfl, ?_⟩
  intro snapOk advOk
  have := flipLoop_le snapOk advOk 500 1
  omega

end Frisian
